import Mathlib

/-!
A verification development for the rich-text compositor
(`sugarloaf/src/components/rich_text/compositor.rs`).

Rust `f32` values are modelled as exact rationals (`ℚ`); machine integers
(`i32`, `u16`) are modelled as `ℤ`/`ℕ`.  The glyph cache session is modelled
as a pair of abstract lookup functions, and the batch accumulator as the list
of primitive draw commands it has received, in order.
-/

namespace Rio

/-- Model of Rust `f32`: exact rationals. -/
abbrev F32 := ℚ

/-- Rust `f32::round`: round half away from zero, result as `i32` (`ℤ`). -/
def roundTiesAway (q : ℚ) : ℤ :=
  if 0 ≤ q then ⌊q + 1/2⌋ else ⌈q - 1/2⌉

/-- RGBA color, `[f32; 4]`. -/
abbrev Color := F32 × F32 × F32 × F32

/-- `Rect { x, y, width, height }`. -/
structure Rect where
  x : F32
  y : F32
  width : F32
  height : F32
  deriving Repr, DecidableEq

/-- `Rect::new`. -/
def Rect.new (x y width height : F32) : Rect := ⟨x, y, width, height⟩

/-- Opaque texture identifier. -/
structure TextureId where
  id : ℕ
  deriving Repr, DecidableEq

/-- Modelled from the spec: `ImageId` carries an alpha-channel flag queryable
via `has_alpha()` (the image cache internals are not under `src/`). -/
structure ImageId where
  index : ℕ
  alpha : Bool
  deriving Repr, DecidableEq

/-- `ImageId::has_alpha`. -/
def ImageId.has_alpha (i : ImageId) : Bool := i.alpha

/-- Atlas location of an image: min/max texture coordinates and texture id. -/
structure ImageLocation where
  min : F32 × F32
  max : F32 × F32
  texture_id : TextureId
  deriving Repr, DecidableEq

/-- Modelled from the spec: texture lifecycle events (atlas create/update/evict)
emitted by the image cache. -/
inductive TextureEvent where
  | CreateTexture (id : TextureId)
  | UpdateTexture (id : TextureId)
  | DestroyTexture (id : TextureId)
  deriving Repr, DecidableEq

/-- A rasterized glyph cache entry: bearings, dimensions, bitmap flag, backing
image handle, and the descender-ink interval reported by `entry.desc.range()`. -/
structure GlyphEntry where
  left : ℤ
  top : ℤ
  width : ℕ
  height : ℕ
  is_bitmap : Bool
  image : ImageId
  desc_range : Option (F32 × F32)
  deriving Repr, DecidableEq

/-- Input glyph: identifier and pen position. -/
structure Glyph where
  id : ℕ
  x : F32
  y : F32
  deriving Repr, DecidableEq

/-- `SugarCursor`: block or caret cursor with color, or no cursor. -/
inductive SugarCursor where
  | Block (color : Color)
  | Caret (color : Color)
  | Disabled
  deriving Repr, DecidableEq

/-- Underline descriptor of a run style: offset, size (thickness), color. -/
structure UnderlineInfo where
  offset : F32
  size : F32
  color : Color
  deriving Repr, DecidableEq

/-- `TextRunStyle`.  The font fields (`font`, `font_coords`, `font_size`) only
feed the glyph-cache session, which is abstracted into `Session` below, so they
are folded into the session and omitted here. -/
structure TextRunStyle where
  color : Color
  background_color : Option Color
  underline : Option UnderlineInfo
  cursor : SugarCursor
  baseline : F32
  topline : F32
  line_height : F32
  deriving Repr, DecidableEq

/-- The glyph-cache session for one run: `session.get(id, x, y)` and
`session.get_image(image)`, abstracted as lookup functions. -/
structure Session where
  get : ℕ → F32 → F32 → Option GlyphEntry
  get_image : ImageId → Option ImageLocation

/-- A primitive draw request received by the batch accumulator:
`add_rect`, `add_image_rect` or `add_mask_rect` with all their arguments. -/
inductive BatchCmd where
  | rect (r : Rect) (depth : F32) (color : Color)
  | image_rect (r : Rect) (depth : F32) (color : Color)
      (coords : F32 × F32 × F32 × F32) (tex : TextureId) (has_alpha : Bool)
  | mask_rect (r : Rect) (depth : F32) (color : Color)
      (coords : F32 × F32 × F32 × F32) (tex : TextureId) (has_alpha : Bool)
  deriving Repr, DecidableEq

/-- The depth tag of a batched primitive. -/
def BatchCmd.depth : BatchCmd → F32
  | .rect _ d _ => d
  | .image_rect _ d _ _ _ _ => d
  | .mask_rect _ d _ _ _ _ => d

/-- `ComposedRect { rect, coords, color, has_alpha, image }`. -/
structure ComposedRect where
  rect : Rect
  coords : F32 × F32 × F32 × F32
  color : Color
  has_alpha : Bool
  image : TextureId
  deriving Repr, DecidableEq

/-- `CachedRect`: the replayable record of one emitted primitive. -/
inductive CachedRect where
  | Image (data : ComposedRect)
  | Mask (data : ComposedRect)
  | Standard (data : Rect × Color)
  deriving Repr, DecidableEq

/-- Modelled from the spec: the image cache accumulates texture lifecycle
events since the last drain; `drain_events` feeds them all to the sink and
clears the pending queue.  The cache's allocation tables are not needed by any
claim and are not modelled. -/
structure ImageCache where
  pending_events : List TextureEvent
  deriving Repr, DecidableEq

/-- `ImageCache::drain_events`: returns all pending events (fed to the sink,
in order) and the cache with its pending queue cleared. -/
def ImageCache.drain_events (ic : ImageCache) : List TextureEvent × ImageCache :=
  (ic.pending_events, { pending_events := [] })

/-- The compositor.  The batch accumulator (`BatchManager`, modelled from the
spec as the ordered list of primitive requests it received) and the intercept
buffer are owned state; the glyph cache is abstracted into the `Session`
argument of `drawGlyphs`. -/
structure Compositor where
  images : ImageCache
  batches : List BatchCmd
  intercepts : List (F32 × F32)
  deriving Repr, DecidableEq

/-- `Compositor::new`. -/
def Compositor.new : Compositor :=
  { images := { pending_events := [] }, batches := [], intercepts := [] }

/-- `Compositor::begin`: resets the batch accumulator (`batches.reset()`,
modelled from the spec as clearing all accumulated primitives). -/
def Compositor.begin (c : Compositor) : Compositor :=
  { c with batches := [] }

/-- Stable insertion of a command into a depth-sorted list (before the first
element of strictly larger depth). -/
def insertByDepth (cmd : BatchCmd) : List BatchCmd → List BatchCmd
  | [] => [cmd]
  | c :: cs =>
    if c.depth ≤ cmd.depth then c :: insertByDepth cmd cs else cmd :: c :: cs

/-- Modelled from the spec: `BatchManager::build_display_list` serializes the
accumulated primitives into a depth-ordered display list. -/
def build_display_list (batches : List BatchCmd) : List BatchCmd :=
  batches.foldr insertByDepth []

/-- `Compositor::finish`: drains all pending texture events into the sink and
serializes the batch accumulator into the display list.  Returned as
`((events fed to the sink, display list), compositor afterwards)`. -/
def Compositor.finish (c : Compositor) :
    (List TextureEvent × List BatchCmd) × Compositor :=
  let drained := c.images.drain_events
  ((drained.1, build_display_list c.batches), { c with images := drained.2 })

/-- `let subpx_bias = (0.125, 0.);` -/
def subpxBias : F32 × F32 := (1/8, 0)

/-- `let gx = (glyph.x + subpx_bias.0).floor() + entry.left as f32;` -/
def glyphX (g : Glyph) (entry : GlyphEntry) : F32 :=
  (⌊g.x + subpxBias.1⌋ : ℤ) + (entry.left : ℚ)

/-- `let gy = (glyph.y + subpx_bias.1).floor() - entry.top as f32;` -/
def glyphY (g : Glyph) (entry : GlyphEntry) : F32 :=
  (⌊g.y + subpxBias.2⌋ : ℤ) - (entry.top : ℚ)

/-- The mutable state threaded through the glyph loop of `draw_glyphs`:
the batch accumulator contents, the intercept buffer, and the `result` list. -/
structure GlyphLoopState where
  batches : List BatchCmd
  intercepts : List (F32 × F32)
  result : List CachedRect
  deriving Repr, DecidableEq

/-- The body of the glyph loop of `draw_glyphs` for one glyph whose cache and
atlas lookups both succeeded (source lines 203-284).  Note: in the source the
inner `let rect = Rect::new(gx, gy, ..)` bindings are scoped to the
`is_bitmap` branches, so the background and cursor arms read the outer run
`rect` parameter. -/
def processGlyphHit (rect : Rect) (depth : F32) (style : TextRunStyle)
    (underline : Bool) (underline_offset : ℤ) (g : Glyph) (entry : GlyphEntry)
    (img : ImageLocation) (st : GlyphLoopState) : GlyphLoopState :=
  let gx := glyphX g entry
  let gy := glyphY g entry
  let st1 :=
    if entry.is_bitmap then
      let r := Rect.new gx gy entry.width entry.height
      let color : Color := (1, 1, 1, 1)
      let coords := (img.min.1, img.min.2, img.max.1, img.max.2)
      { st with
        batches := st.batches ++
          [.image_rect r depth color coords img.texture_id entry.image.has_alpha],
        result := st.result ++
          [.Image ⟨r, coords, color, entry.image.has_alpha, img.texture_id⟩] }
    else
      let r := Rect.new gx gy entry.width entry.height
      let coords := (img.min.1, img.min.2, img.max.1, img.max.2)
      { st with
        batches := st.batches ++
          [.mask_rect r depth style.color coords img.texture_id true],
        result := st.result ++
          [.Mask ⟨r, coords, style.color, true, img.texture_id⟩] }
  let st2 :=
    match style.background_color with
    | some bg_color =>
      let r := Rect.new rect.x style.topline rect.width style.line_height
      { st1 with
        batches := st1.batches ++ [.rect r depth bg_color],
        result := st1.result ++ [.Standard (r, bg_color)] }
    | none => st1
  let st3 :=
    match style.cursor with
    | .Block cursor_color =>
      let r := Rect.new rect.x style.topline rect.width style.line_height
      { st2 with
        batches := st2.batches ++ [.rect r depth cursor_color],
        result := st2.result ++ [.Standard (r, cursor_color)] }
    | .Caret cursor_color =>
      let r := Rect.new rect.x style.topline 3 style.line_height
      { st2 with
        batches := st2.batches ++ [.rect r depth cursor_color],
        result := st2.result ++ [.Standard (r, cursor_color)] }
    | .Disabled => st2
  if underline ∧ entry.top - underline_offset < (entry.height : ℤ) then
    match entry.desc_range with
    | some desc_ink =>
      { st3 with
        intercepts := st3.intercepts ++ [(desc_ink.1 + gx, desc_ink.2 + gx)] }
    | none => st3
  else st3

/-- One iteration of the glyph loop of `draw_glyphs` (source lines 198-287):
cache lookup, atlas lookup, then the hit path; a miss at either lookup leaves
the state untouched. -/
def processGlyph (sess : Session) (rect : Rect) (depth : F32)
    (style : TextRunStyle) (underline : Bool) (underline_offset : ℤ)
    (st : GlyphLoopState) (g : Glyph) : GlyphLoopState :=
  match sess.get g.id g.x g.y with
  | none => st
  | some entry =>
    match sess.get_image entry.image with
    | none => st
    | some img =>
      processGlyphHit rect depth style underline underline_offset g entry img st

/-- The glyph loop of `draw_glyphs`: `for g in glyphs { .. }`. -/
def glyphLoop (sess : Session) (rect : Rect) (depth : F32)
    (style : TextRunStyle) (underline : Bool) (underline_offset : ℤ)
    (st : GlyphLoopState) (glyphs : List Glyph) : GlyphLoopState :=
  glyphs.foldl (processGlyph sess rect depth style underline underline_offset) st

/-- Source lines 175-184: unpack the underline style into
`(underline, underline_offset, underline_size, underline_color)`. -/
def underlineParams (style : TextRunStyle) : Bool × ℤ × F32 × Color :=
  match style.underline with
  | some u =>
    (true, roundTiesAway u.offset, max ((roundTiesAway u.size : ℤ) : ℚ) 1, u.color)
  | none => (false, 0, 0, (0, 0, 0, 0))

/-- One iteration of the underline sweep of `draw_glyphs` (source lines
295-302), acting on `(ux, batch contents, result)`. -/
def sweepStep (uy underline_size : F32) (underline_color : Color) (depth : F32)
    (acc : F32 × List BatchCmd × List CachedRect) (range : F32 × F32) :
    F32 × List BatchCmd × List CachedRect :=
  let (ux, bs, res) := acc
  if ux < range.1 then
    let r := Rect.new ux uy (range.1 - ux) underline_size
    (range.2, bs ++ [.rect r depth underline_color],
      res ++ [.Standard (r, underline_color)])
  else
    (range.2, bs, res)

/-- `Compositor::draw_glyphs` (source lines 162-312), returning the compositor
afterwards together with the returned `Vec<CachedRect>`. -/
def drawGlyphs (c : Compositor) (sess : Session) (rect : Rect) (depth : F32)
    (style : TextRunStyle) (glyphs : List Glyph) :
    Compositor × List CachedRect :=
  let (underline, underline_offset, underline_size, underline_color) :=
    underlineParams style
  let intercepts0 := if underline then [] else c.intercepts
  let x := rect.x
  let st := glyphLoop sess rect depth style underline underline_offset
    ⟨c.batches, intercepts0, []⟩ glyphs
  if underline then
    let intercepts := st.intercepts.map fun r => (r.1 - 1, r.2 + 1)
    let uy := style.baseline - (underline_offset : ℚ)
    let swept := List.foldl (sweepStep uy underline_size underline_color depth)
      (x, st.batches, st.result) intercepts
    let ux := swept.1
    let bs := swept.2.1
    let res := swept.2.2
    let endx := x + rect.width
    if ux < endx then
      let r := Rect.new ux uy (endx - ux) underline_size
      ({ images := c.images,
         batches := bs ++ [.rect r depth underline_color],
         intercepts := intercepts },
        res ++ [.Standard (r, underline_color)])
    else
      ({ images := c.images, batches := bs, intercepts := intercepts }, res)
  else
    ({ images := c.images, batches := st.batches, intercepts := st.intercepts },
      st.result)

/-- The loop body of `draw_glyphs_from_cache`: re-appends one cached primitive
to the batch accumulator at the given depth, dispatching on its variant. -/
def replayStep (depth : F32) (c : Compositor) (val : CachedRect) : Compositor :=
  match val with
  | .Image data =>
    { c with batches := c.batches ++
        [.image_rect data.rect depth data.color data.coords data.image
          data.has_alpha] }
  | .Mask data =>
    { c with batches := c.batches ++
        [.mask_rect data.rect depth data.color data.coords data.image
          data.has_alpha] }
  | .Standard data =>
    { c with batches := c.batches ++ [.rect data.1 depth data.2] }

/-- `Compositor::draw_glyphs_from_cache` (source lines 131-159). -/
def drawGlyphsFromCache (c : Compositor) (cache : List CachedRect)
    (depth : F32) : Compositor :=
  cache.foldl (replayStep depth) c

/-- The batch command that replaying one `CachedRect` at a given depth
produces: same rect, color, texture coordinates, texture id and alpha flag. -/
def cachedCmd (depth : F32) : CachedRect → BatchCmd
  | .Image data =>
    .image_rect data.rect depth data.color data.coords data.image data.has_alpha
  | .Mask data =>
    .mask_rect data.rect depth data.color data.coords data.image data.has_alpha
  | .Standard data => .rect data.1 depth data.2

/-! ### Specification-side description of the underline sweep

These definitions follow the words of the underline claim: sweep left to right
from the run's left edge, emit one `(start, width)` gap before each interval
whose start lies strictly right of the sweep position, advance to the
interval's end, and emit a final gap up to the run's right edge. -/

/-- The gaps emitted before each interval during the sweep, as
`(start, width)` pairs. -/
def gapsBefore : F32 → List (F32 × F32) → List (F32 × F32)
  | _, [] => []
  | ux, r :: rs =>
    (if ux < r.1 then [(ux, r.1 - ux)] else []) ++ gapsBefore r.2 rs

/-- The sweep position after consuming all intervals. -/
def finalUx : F32 → List (F32 × F32) → F32
  | ux, [] => ux
  | _, r :: rs => finalUx r.2 rs

/-- All gaps of the sweep from `x` to `endx` over the given intervals:
the gaps before each interval, then the final gap up to `endx` if strictly
positive. -/
def specGaps (x endx : F32) (intervals : List (F32 × F32)) :
    List (F32 × F32) :=
  gapsBefore x intervals ++
    (if finalUx x intervals < endx
      then [(finalUx x intervals, endx - finalUx x intervals)] else [])

/-! ### Decomposition of the hit path

Named pieces of what `processGlyphHit` appends, used to state and prove the
structural lemmas.  Each is proved (not assumed) to describe `processGlyphHit`
in `processGlyphHit_eq` below. -/

/-- The rectangle of the emitted glyph primitive. -/
def hitRect (g : Glyph) (entry : GlyphEntry) : Rect :=
  Rect.new (glyphX g entry) (glyphY g entry) entry.width entry.height

/-- The texture coordinates of the emitted glyph primitive. -/
def hitCoords (img : ImageLocation) : F32 × F32 × F32 × F32 :=
  (img.min.1, img.min.2, img.max.1, img.max.2)

/-- The batch command emitted for the glyph itself. -/
def glyphBatchCmd (depth : F32) (style : TextRunStyle) (g : Glyph)
    (entry : GlyphEntry) (img : ImageLocation) : BatchCmd :=
  if entry.is_bitmap then
    .image_rect (hitRect g entry) depth (1, 1, 1, 1) (hitCoords img)
      img.texture_id entry.image.has_alpha
  else
    .mask_rect (hitRect g entry) depth style.color (hitCoords img)
      img.texture_id true

/-- The `CachedRect` recorded for the glyph itself. -/
def glyphCachedRect (style : TextRunStyle) (g : Glyph) (entry : GlyphEntry)
    (img : ImageLocation) : CachedRect :=
  if entry.is_bitmap then
    .Image ⟨hitRect g entry, hitCoords img, (1, 1, 1, 1),
      entry.image.has_alpha, img.texture_id⟩
  else
    .Mask ⟨hitRect g entry, hitCoords img, style.color, true, img.texture_id⟩

/-- The batch commands emitted for the background fill (per glyph). -/
def bgCmds (rect : Rect) (depth : F32) (style : TextRunStyle) : List BatchCmd :=
  match style.background_color with
  | some bg_color =>
    [.rect (Rect.new rect.x style.topline rect.width style.line_height)
      depth bg_color]
  | none => []

/-- The `CachedRect`s recorded for the background fill (per glyph). -/
def bgCached (rect : Rect) (style : TextRunStyle) : List CachedRect :=
  match style.background_color with
  | some bg_color =>
    [.Standard (Rect.new rect.x style.topline rect.width style.line_height,
      bg_color)]
  | none => []

/-- The batch commands emitted for the cursor overlay (per glyph). -/
def cursorCmds (rect : Rect) (depth : F32) (style : TextRunStyle) :
    List BatchCmd :=
  match style.cursor with
  | .Block cursor_color =>
    [.rect (Rect.new rect.x style.topline rect.width style.line_height)
      depth cursor_color]
  | .Caret cursor_color =>
    [.rect (Rect.new rect.x style.topline 3 style.line_height)
      depth cursor_color]
  | .Disabled => []

/-- The `CachedRect`s recorded for the cursor overlay (per glyph). -/
def cursorCached (rect : Rect) (style : TextRunStyle) : List CachedRect :=
  match style.cursor with
  | .Block cursor_color =>
    [.Standard (Rect.new rect.x style.topline rect.width style.line_height,
      cursor_color)]
  | .Caret cursor_color =>
    [.Standard (Rect.new rect.x style.topline 3 style.line_height,
      cursor_color)]
  | .Disabled => []

/-- The intervals pushed to the intercept buffer for one glyph. -/
def hitIntercepts (underline : Bool) (underline_offset : ℤ) (g : Glyph)
    (entry : GlyphEntry) : List (F32 × F32) :=
  if underline ∧ entry.top - underline_offset < (entry.height : ℤ) then
    match entry.desc_range with
    | some desc_ink =>
      [(desc_ink.1 + glyphX g entry, desc_ink.2 + glyphX g entry)]
    | none => []
  else []

/-- All batch commands appended for one glyph that hit. -/
def hitCmds (rect : Rect) (depth : F32) (style : TextRunStyle) (g : Glyph)
    (entry : GlyphEntry) (img : ImageLocation) : List BatchCmd :=
  glyphBatchCmd depth style g entry img ::
    (bgCmds rect depth style ++ cursorCmds rect depth style)

/-- All `CachedRect`s recorded for one glyph that hit. -/
def hitCached (rect : Rect) (style : TextRunStyle) (g : Glyph)
    (entry : GlyphEntry) (img : ImageLocation) : List CachedRect :=
  glyphCachedRect style g entry img ::
    (bgCached rect style ++ cursorCached rect style)

/-! ### Concrete fixtures used by witnesses and counterexamples -/

/-- Atlas location shared by the fixture entries. -/
def img0 : ImageLocation := ⟨(0, 0), (1, 1), ⟨0⟩⟩

/-- Non-bitmap entry with descender-ink interval `(2, 4)`. -/
def entry0 : GlyphEntry :=
  { left := 0, top := 0, width := 1, height := 1, is_bitmap := false,
    image := ⟨0, true⟩, desc_range := some (2, 4) }

/-- Non-bitmap entry with descender-ink interval `(10, 12)`. -/
def entry1 : GlyphEntry :=
  { left := 0, top := 0, width := 1, height := 1, is_bitmap := false,
    image := ⟨0, true⟩, desc_range := some (10, 12) }

/-- Non-bitmap entry of raster size 5×7, no descender ink. -/
def entryW : GlyphEntry :=
  { left := 0, top := 0, width := 5, height := 7, is_bitmap := false,
    image := ⟨0, true⟩, desc_range := none }

/-- Non-bitmap entry with left bearing `-1`. -/
def entryC : GlyphEntry :=
  { left := -1, top := 0, width := 5, height := 7, is_bitmap := false,
    image := ⟨0, true⟩, desc_range := none }

/-- Bitmap entry whose image handle has no alpha channel. -/
def entryB : GlyphEntry :=
  { left := 2, top := 3, width := 4, height := 6, is_bitmap := true,
    image := ⟨1, false⟩, desc_range := none }

/-- Fixture session: glyph id 0 ↦ `entry0`, 1 ↦ `entry1`, 2 ↦ `entryW`,
3 ↦ `entryC`, 4 ↦ `entryB`, anything else misses; every image resolves
to `img0`. -/
def sess0 : Session :=
  { get := fun id _ _ =>
      if id = 0 then some entry0
      else if id = 1 then some entry1
      else if id = 2 then some entryW
      else if id = 3 then some entryC
      else if id = 4 then some entryB
      else none,
    get_image := fun _ => some img0 }

/-- A session whose atlas lookup always misses. -/
def sessNoImg : Session :=
  { get := sess0.get, get_image := fun _ => none }

/-- Run rectangle spanning x ∈ [0, 20]. -/
def rect20 : Rect := ⟨0, 0, 20, 1⟩

/-- Fixture underline color. -/
def ucol : Color := (1, 0, 0, 1)

/-- Run style with underline (offset 0, size 1), no background, no cursor. -/
def styleU : TextRunStyle :=
  { color := (0, 0, 0, 1), background_color := none,
    underline := some ⟨0, 1, ucol⟩, cursor := .Disabled,
    baseline := 0, topline := 0, line_height := 1 }

/-- Run style with a background color and nothing else. -/
def styleBg : TextRunStyle :=
  { color := (0, 0, 0, 1), background_color := some (0, 1, 0, 1),
    underline := none, cursor := .Disabled,
    baseline := 0, topline := 0, line_height := 1 }

/-- Run style with a caret cursor and nothing else. -/
def styleCaret : TextRunStyle :=
  { color := (0, 0, 0, 1), background_color := none,
    underline := none, cursor := .Caret (0, 0, 1, 1),
    baseline := 0, topline := 0, line_height := 1 }

/-- Run style with a block cursor and nothing else. -/
def styleBlock : TextRunStyle :=
  { color := (0, 0, 0, 1), background_color := none,
    underline := none, cursor := .Block (0, 0, 1, 1),
    baseline := 0, topline := 0, line_height := 1 }

/-- Plain run style: no background, no underline, no cursor. -/
def stylePlain : TextRunStyle :=
  { color := (0, 0, 0, 1), background_color := none,
    underline := none, cursor := .Disabled,
    baseline := 0, topline := 0, line_height := 1 }

/-- Glyph with id 0 at the pen origin. -/
def g0 : Glyph := ⟨0, 0, 0⟩

/-- Glyph with id 1 at the pen origin. -/
def g1 : Glyph := ⟨1, 0, 0⟩

/-- Glyph with id 2 at pen x = 3. -/
def gW : Glyph := ⟨2, 3, 0⟩

/-- Glyph with id 3 at pen x = 4 (draw origin x = 3 via left bearing −1). -/
def gC : Glyph := ⟨3, 4, 0⟩

/-- Glyph with id 4 (bitmap entry) at the pen origin. -/
def gB : Glyph := ⟨4, 0, 0⟩

/-- Glyph with id 9: both fixture sessions miss it at the cache lookup. -/
def gMiss : Glyph := ⟨9, 0, 0⟩

/-! ### Structural lemmas -/

/-- `processGlyphHit` appends exactly the named hit pieces. -/
theorem processGlyphHit_eq (rect : Rect) (depth : F32) (style : TextRunStyle)
    (underline : Bool) (uo : ℤ) (g : Glyph) (entry : GlyphEntry)
    (img : ImageLocation) (st : GlyphLoopState) :
    processGlyphHit rect depth style underline uo g entry img st =
      { batches := st.batches ++ hitCmds rect depth style g entry img,
        intercepts := st.intercepts ++ hitIntercepts underline uo g entry,
        result := st.result ++ hitCached rect style g entry img } := by
  unfold processGlyphHit
  cases hb : entry.is_bitmap <;>
    cases hbg : style.background_color <;>
    cases hcur : style.cursor <;>
    by_cases hul : underline ∧ entry.top - uo < (entry.height : ℤ) <;>
    cases hdr : entry.desc_range <;>
    simp [hb, hbg, hcur, hul, hdr, hitCmds, hitCached, glyphBatchCmd,
      glyphCachedRect, bgCmds, bgCached, cursorCmds, cursorCached,
      hitIntercepts, hitRect, hitCoords, glyphX, glyphY, List.append_assoc]

/-- A glyph that misses either lookup leaves the loop state untouched. -/
theorem processGlyph_miss (sess : Session) (rect : Rect) (depth : F32)
    (style : TextRunStyle) (underline : Bool) (uo : ℤ) (st : GlyphLoopState)
    (g : Glyph)
    (h : sess.get g.id g.x g.y = none ∨
      ∃ entry, sess.get g.id g.x g.y = some entry ∧
        sess.get_image entry.image = none) :
    processGlyph sess rect depth style underline uo st g = st := by
  unfold processGlyph
  rcases h with h | ⟨entry, h1, h2⟩
  · rw [h]
  · simp only [h1, h2]

/-- A glyph whose lookups both succeed steps by the hit pieces. -/
theorem processGlyph_hit (sess : Session) (rect : Rect) (depth : F32)
    (style : TextRunStyle) (underline : Bool) (uo : ℤ) (st : GlyphLoopState)
    (g : Glyph) (entry : GlyphEntry) (img : ImageLocation)
    (hget : sess.get g.id g.x g.y = some entry)
    (himg : sess.get_image entry.image = some img) :
    processGlyph sess rect depth style underline uo st g =
      { batches := st.batches ++ hitCmds rect depth style g entry img,
        intercepts := st.intercepts ++ hitIntercepts underline uo g entry,
        result := st.result ++ hitCached rect style g entry img } := by
  unfold processGlyph
  simp only [hget, himg]
  exact processGlyphHit_eq ..

/-- One loop iteration only appends; its contributions do not depend on the
incoming state. -/
theorem processGlyph_delta (sess : Session) (rect : Rect) (depth : F32)
    (style : TextRunStyle) (underline : Bool) (uo : ℤ) (st : GlyphLoopState)
    (g : Glyph) :
    processGlyph sess rect depth style underline uo st g =
      { batches := st.batches ++
          (processGlyph sess rect depth style underline uo ⟨[], [], []⟩ g).batches,
        intercepts := st.intercepts ++
          (processGlyph sess rect depth style underline uo ⟨[], [], []⟩ g).intercepts,
        result := st.result ++
          (processGlyph sess rect depth style underline uo ⟨[], [], []⟩ g).result } := by
  rcases hget : sess.get g.id g.x g.y with _ | entry
  · rw [processGlyph_miss _ _ _ _ _ _ _ _ (Or.inl hget),
      processGlyph_miss _ _ _ _ _ _ _ _ (Or.inl hget)]
    simp
  · rcases himg : sess.get_image entry.image with _ | img
    · rw [processGlyph_miss _ _ _ _ _ _ _ _ (Or.inr ⟨entry, hget, himg⟩),
        processGlyph_miss _ _ _ _ _ _ _ _ (Or.inr ⟨entry, hget, himg⟩)]
      simp
    · rw [processGlyph_hit _ _ _ _ _ _ _ _ _ _ hget himg,
        processGlyph_hit _ _ _ _ _ _ _ _ _ _ hget himg]
      simp

/-- `glyphLoop` over `[]`. -/
theorem glyphLoop_nil (sess : Session) (rect : Rect) (depth : F32)
    (style : TextRunStyle) (underline : Bool) (uo : ℤ) (st : GlyphLoopState) :
    glyphLoop sess rect depth style underline uo st [] = st := rfl

/-- `glyphLoop` over `g :: gs`. -/
theorem glyphLoop_cons (sess : Session) (rect : Rect) (depth : F32)
    (style : TextRunStyle) (underline : Bool) (uo : ℤ) (st : GlyphLoopState)
    (g : Glyph) (gs : List Glyph) :
    glyphLoop sess rect depth style underline uo st (g :: gs) =
      glyphLoop sess rect depth style underline uo
        (processGlyph sess rect depth style underline uo st g) gs := rfl

/-- The glyph loop only appends; its contributions do not depend on the
incoming state. -/
theorem glyphLoop_delta (sess : Session) (rect : Rect) (depth : F32)
    (style : TextRunStyle) (underline : Bool) (uo : ℤ) (glyphs : List Glyph) :
    ∀ st : GlyphLoopState,
      glyphLoop sess rect depth style underline uo st glyphs =
        { batches := st.batches ++
            (glyphLoop sess rect depth style underline uo ⟨[], [], []⟩ glyphs).batches,
          intercepts := st.intercepts ++
            (glyphLoop sess rect depth style underline uo ⟨[], [], []⟩ glyphs).intercepts,
          result := st.result ++
            (glyphLoop sess rect depth style underline uo ⟨[], [], []⟩ glyphs).result } := by
  induction glyphs with
  | nil => intro st; simp [glyphLoop_nil]
  | cons g gs ih =>
    intro st
    rw [glyphLoop_cons, glyphLoop_cons,
      ih (processGlyph sess rect depth style underline uo st g),
      ih (processGlyph sess rect depth style underline uo ⟨[], [], []⟩ g),
      processGlyph_delta]
    simp [List.append_assoc]

/-- The batch commands of one hit are exactly the replay images of its
`CachedRect`s: rect, color, coordinates, texture id, alpha flag and depth all
agree, in order. -/
theorem hitCmds_map (rect : Rect) (depth : F32) (style : TextRunStyle)
    (g : Glyph) (entry : GlyphEntry) (img : ImageLocation) :
    hitCmds rect depth style g entry img =
      (hitCached rect style g entry img).map (cachedCmd depth) := by
  cases hb : entry.is_bitmap <;>
    cases hbg : style.background_color <;>
    cases hcur : style.cursor <;>
    simp [hb, hbg, hcur, hitCmds, hitCached, glyphBatchCmd, glyphCachedRect,
      bgCmds, bgCached, cursorCmds, cursorCached, cachedCmd]

/-- During the glyph loop, the batch commands appended are exactly the replay
images of the `CachedRect`s recorded, in order. -/
theorem glyphLoop_lockstep (sess : Session) (rect : Rect) (depth : F32)
    (style : TextRunStyle) (underline : Bool) (uo : ℤ) (glyphs : List Glyph) :
    (glyphLoop sess rect depth style underline uo ⟨[], [], []⟩ glyphs).batches =
      ((glyphLoop sess rect depth style underline uo ⟨[], [], []⟩ glyphs).result).map
        (cachedCmd depth) := by
  induction glyphs with
  | nil => simp [glyphLoop_nil]
  | cons g gs ih =>
    rw [glyphLoop_cons,
      glyphLoop_delta sess rect depth style underline uo gs
        (processGlyph sess rect depth style underline uo ⟨[], [], []⟩ g)]
    rcases hget : sess.get g.id g.x g.y with _ | entry
    · rw [processGlyph_miss _ _ _ _ _ _ _ _ (Or.inl hget)]
      simpa using ih
    · rcases himg : sess.get_image entry.image with _ | img
      · rw [processGlyph_miss _ _ _ _ _ _ _ _ (Or.inr ⟨entry, hget, himg⟩)]
        simpa using ih
      · rw [processGlyph_hit _ _ _ _ _ _ _ _ _ _ hget himg]
        simp [ih, hitCmds_map]

/-- The underline sweep fold emits exactly the `gapsBefore` rectangles, in
lockstep between the batch accumulator and the result list, and ends at
`finalUx`. -/
theorem sweep_foldl_eq (uy usize : F32) (ucolor : Color) (depth : F32) :
    ∀ (ivs : List (F32 × F32)) (ux : F32) (bs : List BatchCmd)
      (res : List CachedRect),
      List.foldl (sweepStep uy usize ucolor depth) (ux, bs, res) ivs =
        (finalUx ux ivs,
          bs ++ (gapsBefore ux ivs).map
            (fun p => BatchCmd.rect (Rect.new p.1 uy p.2 usize) depth ucolor),
          res ++ (gapsBefore ux ivs).map
            (fun p => CachedRect.Standard (Rect.new p.1 uy p.2 usize, ucolor))) := by
  intro ivs
  induction ivs with
  | nil => intro ux bs res; simp [finalUx, gapsBefore]
  | cons r rs ih =>
    intro ux bs res
    rw [List.foldl_cons]
    by_cases h : ux < r.1 <;>
      simp [sweepStep, h, ih, finalUx, gapsBefore, List.append_assoc]

/-- Every gap emitted before an interval has strictly positive width. -/
theorem gapsBefore_pos :
    ∀ (ivs : List (F32 × F32)) (ux : F32), ∀ p ∈ gapsBefore ux ivs, 0 < p.2 := by
  intro ivs
  induction ivs with
  | nil => intro ux p hp; simp [gapsBefore] at hp
  | cons r rs ih =>
    intro ux p hp
    rw [gapsBefore] at hp
    rcases List.mem_append.1 hp with h | h
    · by_cases hlt : ux < r.1
      · simp only [hlt, if_true, List.mem_singleton] at h
        subst h
        simpa using sub_pos.2 hlt
      · simp [hlt] at h
    · exact ih r.2 p h

/-- Every gap of the full sweep has strictly positive width. -/
theorem specGaps_pos (x endx : F32) (ivs : List (F32 × F32)) :
    ∀ p ∈ specGaps x endx ivs, 0 < p.2 := by
  intro p hp
  rcases List.mem_append.1 hp with h | h
  · exact gapsBefore_pos ivs x p h
  · by_cases hlt : finalUx x ivs < endx
    · simp only [hlt, if_true, List.mem_singleton] at h
      subst h
      simpa using sub_pos.2 hlt
    · simp [hlt] at h

/-- One replay step appends exactly the replay image of the `CachedRect`. -/
theorem replayStep_eq (depth : F32) (c : Compositor) (val : CachedRect) :
    replayStep depth c val =
      { c with batches := c.batches ++ [cachedCmd depth val] } := by
  cases val <;> simp [replayStep, cachedCmd]

/-- Replay appends, per `CachedRect` and in order, exactly the batch command
with the same rect, color, coordinates, texture id and alpha flag at the given
depth. -/
theorem drawGlyphsFromCache_eq (c : Compositor) (cache : List CachedRect)
    (depth : F32) :
    drawGlyphsFromCache c cache depth =
      { c with batches := c.batches ++ cache.map (cachedCmd depth) } := by
  induction cache generalizing c with
  | nil => simp [drawGlyphsFromCache]
  | cons val rest ih =>
    have h1 : drawGlyphsFromCache c (val :: rest) depth =
        drawGlyphsFromCache (replayStep depth c val) rest depth := rfl
    rw [h1, ih, replayStep_eq]
    simp [List.append_assoc]

/-- `draw_glyphs` without underline: just the glyph loop, started on the
compositor's current batches and (unCleared) intercepts. -/
theorem drawGlyphs_none_eq (c : Compositor) (sess : Session) (rect : Rect)
    (depth : F32) (style : TextRunStyle) (glyphs : List Glyph)
    (hu : style.underline = none) :
    drawGlyphs c sess rect depth style glyphs =
      ({ images := c.images,
         batches := (glyphLoop sess rect depth style false 0
            ⟨c.batches, c.intercepts, []⟩ glyphs).batches,
         intercepts := (glyphLoop sess rect depth style false 0
            ⟨c.batches, c.intercepts, []⟩ glyphs).intercepts },
        (glyphLoop sess rect depth style false 0
            ⟨c.batches, c.intercepts, []⟩ glyphs).result) := by
  simp [drawGlyphs, underlineParams, hu]

/-- `draw_glyphs` with underline: the glyph loop started on a cleared
intercept buffer, then the widened intervals and the sweep rectangles given by
`specGaps`, with y = baseline − rounded offset and height =
max(rounded size, 1). -/
theorem drawGlyphs_underline_eq (c : Compositor) (sess : Session) (rect : Rect)
    (depth : F32) (style : TextRunStyle) (glyphs : List Glyph)
    (u : UnderlineInfo) (hu : style.underline = some u) :
    drawGlyphs c sess rect depth style glyphs =
      ({ images := c.images,
         batches :=
           (glyphLoop sess rect depth style true (roundTiesAway u.offset)
               ⟨c.batches, [], []⟩ glyphs).batches ++
             (specGaps rect.x (rect.x + rect.width)
                 (((glyphLoop sess rect depth style true (roundTiesAway u.offset)
                     ⟨c.batches, [], []⟩ glyphs).intercepts).map
                   fun r => (r.1 - 1, r.2 + 1))).map
               fun p => BatchCmd.rect
                 (Rect.new p.1
                   (style.baseline - ((roundTiesAway u.offset : ℤ) : ℚ)) p.2
                   (max ((roundTiesAway u.size : ℤ) : ℚ) 1)) depth u.color,
         intercepts :=
           ((glyphLoop sess rect depth style true (roundTiesAway u.offset)
               ⟨c.batches, [], []⟩ glyphs).intercepts).map
             fun r => (r.1 - 1, r.2 + 1) },
        (glyphLoop sess rect depth style true (roundTiesAway u.offset)
            ⟨c.batches, [], []⟩ glyphs).result ++
          (specGaps rect.x (rect.x + rect.width)
              (((glyphLoop sess rect depth style true (roundTiesAway u.offset)
                  ⟨c.batches, [], []⟩ glyphs).intercepts).map
                fun r => (r.1 - 1, r.2 + 1))).map
            fun p => CachedRect.Standard
              (Rect.new p.1
                (style.baseline - ((roundTiesAway u.offset : ℤ) : ℚ)) p.2
                (max ((roundTiesAway u.size : ℤ) : ℚ) 1), u.color)) := by
  have huP : underlineParams style =
      (true, roundTiesAway u.offset, max ((roundTiesAway u.size : ℤ) : ℚ) 1,
        u.color) := by
    simp [underlineParams, hu]
  simp only [drawGlyphs, huP, if_true]
  rw [sweep_foldl_eq]
  by_cases hend : finalUx rect.x
      (((glyphLoop sess rect depth style true (roundTiesAway u.offset)
          ⟨c.batches, [], []⟩ glyphs).intercepts).map
        fun r => (r.1 - 1, r.2 + 1)) < rect.x + rect.width <;>
    simp [hend, specGaps, List.append_assoc]

/-- During `draw_glyphs`, the batch commands appended are exactly the replay
images (same rect, color, coordinates, texture id, alpha flag) of the returned
`CachedRect`s, in order. -/
theorem drawGlyphs_batches_eq (c : Compositor) (sess : Session) (rect : Rect)
    (depth : F32) (style : TextRunStyle) (glyphs : List Glyph) :
    (drawGlyphs c sess rect depth style glyphs).1.batches =
      c.batches ++
        ((drawGlyphs c sess rect depth style glyphs).2).map (cachedCmd depth) := by
  rcases hu : style.underline with _ | u
  · rw [drawGlyphs_none_eq c sess rect depth style glyphs hu,
      glyphLoop_delta sess rect depth style false 0 glyphs]
    simp [glyphLoop_lockstep]
  · rw [drawGlyphs_underline_eq c sess rect depth style glyphs u hu,
      glyphLoop_delta sess rect depth style true (roundTiesAway u.offset) glyphs]
    simp [glyphLoop_lockstep, List.map_map, List.append_assoc, Function.comp,
      cachedCmd]

/-- A glyph that misses either lookup can be dropped from the loop. -/
theorem glyphLoop_skip (sess : Session) (rect : Rect) (depth : F32)
    (style : TextRunStyle) (underline : Bool) (uo : ℤ) (g : Glyph)
    (pre post : List Glyph) (st : GlyphLoopState)
    (hmiss : sess.get g.id g.x g.y = none ∨
      ∃ entry, sess.get g.id g.x g.y = some entry ∧
        sess.get_image entry.image = none) :
    glyphLoop sess rect depth style underline uo st (pre ++ g :: post) =
      glyphLoop sess rect depth style underline uo st (pre ++ post) := by
  unfold glyphLoop
  rw [List.foldl_append, List.foldl_cons,
    processGlyph_miss _ _ _ _ _ _ _ _ hmiss, ← List.foldl_append]

/-- With underline disabled, one loop iteration never touches the intercept
buffer. -/
theorem processGlyph_false_intercepts (sess : Session) (rect : Rect)
    (depth : F32) (style : TextRunStyle) (uo : ℤ) (st : GlyphLoopState)
    (g : Glyph) :
    (processGlyph sess rect depth style false uo st g).intercepts =
      st.intercepts := by
  rcases hget : sess.get g.id g.x g.y with _ | entry
  · rw [processGlyph_miss _ _ _ _ _ _ _ _ (Or.inl hget)]
  · rcases himg : sess.get_image entry.image with _ | img
    · rw [processGlyph_miss _ _ _ _ _ _ _ _ (Or.inr ⟨entry, hget, himg⟩)]
    · rw [processGlyph_hit _ _ _ _ _ _ _ _ _ _ hget himg]
      simp [hitIntercepts]

/-- With underline disabled, the glyph loop never touches the intercept
buffer. -/
theorem glyphLoop_false_intercepts (sess : Session) (rect : Rect) (depth : F32)
    (style : TextRunStyle) (uo : ℤ) (glyphs : List Glyph) :
    ∀ st : GlyphLoopState,
      (glyphLoop sess rect depth style false uo st glyphs).intercepts =
        st.intercepts := by
  induction glyphs with
  | nil => intro st; rw [glyphLoop_nil]
  | cons g gs ih =>
    intro st
    rw [glyphLoop_cons, ih, processGlyph_false_intercepts]

/-! ### Claim theorems -/

/-- C1: every `CachedRect` pushed into the list returned by `draw_glyphs`
corresponds 1:1, in order and with the same rect, color, texture coordinates,
texture id and alpha flag (via `cachedCmd`), to a primitive appended to the
batch accumulator during the same call; and replaying the returned list at the
same depth on a freshly reset batch accumulator reproduces exactly the batch
contents the original call appended. -/
theorem claim_C1_replay_equivalence (c c₂ : Compositor) (sess : Session)
    (rect : Rect) (depth : F32) (style : TextRunStyle) (glyphs : List Glyph)
    (hfresh : c₂.batches = []) :
    (drawGlyphs c sess rect depth style glyphs).1.batches =
      c.batches ++
        ((drawGlyphs c sess rect depth style glyphs).2).map (cachedCmd depth)
    ∧ (drawGlyphsFromCache c₂
          ((drawGlyphs c sess rect depth style glyphs).2) depth).batches =
        ((drawGlyphs c sess rect depth style glyphs).2).map (cachedCmd depth) := by
  refine ⟨drawGlyphs_batches_eq .., ?_⟩
  rw [drawGlyphsFromCache_eq, hfresh]
  simp

/-- Witness for C1 at a concrete underlined two-glyph run. -/
theorem claim_C1_witness :
    (drawGlyphs Compositor.new sess0 rect20 0 styleU [g0, g1]).1.batches =
      Compositor.new.batches ++
        ((drawGlyphs Compositor.new sess0 rect20 0 styleU [g0, g1]).2).map
          (cachedCmd 0)
    ∧ (drawGlyphsFromCache Compositor.new
          ((drawGlyphs Compositor.new sess0 rect20 0 styleU [g0, g1]).2)
          0).batches =
        ((drawGlyphs Compositor.new sess0 rect20 0 styleU [g0, g1]).2).map
          (cachedCmd 0) :=
  claim_C1_replay_equivalence Compositor.new Compositor.new sess0 rect20 0
    styleU [g0, g1] rfl

/-- C4: for a glyph whose lookups succeed, a bitmap entry yields an Image
primitive colored opaque white with the image handle's alpha flag, otherwise a
Mask primitive with the run's text color, always alpha-blended; the recorded
`CachedRect` carries the same classification, color and alpha flag. -/
theorem claim_C4_classification (sess : Session) (rect : Rect) (depth : F32)
    (style : TextRunStyle) (underline : Bool) (uo : ℤ) (st : GlyphLoopState)
    (g : Glyph) (entry : GlyphEntry) (img : ImageLocation)
    (hget : sess.get g.id g.x g.y = some entry)
    (himg : sess.get_image entry.image = some img) :
    (processGlyph sess rect depth style underline uo st g).batches =
      st.batches ++
        (if entry.is_bitmap then
          BatchCmd.image_rect (hitRect g entry) depth (1, 1, 1, 1)
            (hitCoords img) img.texture_id entry.image.has_alpha
        else
          BatchCmd.mask_rect (hitRect g entry) depth style.color
            (hitCoords img) img.texture_id true) ::
          (bgCmds rect depth style ++ cursorCmds rect depth style)
    ∧ (processGlyph sess rect depth style underline uo st g).result =
        st.result ++
          (if entry.is_bitmap then
            CachedRect.Image ⟨hitRect g entry, hitCoords img, (1, 1, 1, 1),
              entry.image.has_alpha, img.texture_id⟩
          else
            CachedRect.Mask ⟨hitRect g entry, hitCoords img, style.color, true,
              img.texture_id⟩) ::
            (bgCached rect style ++ cursorCached rect style) := by
  rw [processGlyph_hit _ _ _ _ _ _ _ _ _ _ hget himg]
  constructor <;>
    simp [hitCmds, hitCached, glyphBatchCmd, glyphCachedRect]

/-- Witness for C4 at a concrete bitmap glyph whose image has no alpha. -/
theorem claim_C4_witness :
    (processGlyph sess0 rect20 0 stylePlain false 0 ⟨[], [], []⟩ gB).batches =
      [] ++
        (if entryB.is_bitmap then
          BatchCmd.image_rect (hitRect gB entryB) 0 (1, 1, 1, 1)
            (hitCoords img0) img0.texture_id entryB.image.has_alpha
        else
          BatchCmd.mask_rect (hitRect gB entryB) 0 stylePlain.color
            (hitCoords img0) img0.texture_id true) ::
          (bgCmds rect20 0 stylePlain ++ cursorCmds rect20 0 stylePlain)
    ∧ (processGlyph sess0 rect20 0 stylePlain false 0 ⟨[], [], []⟩ gB).result =
        [] ++
          (if entryB.is_bitmap then
            CachedRect.Image ⟨hitRect gB entryB, hitCoords img0, (1, 1, 1, 1),
              entryB.image.has_alpha, img0.texture_id⟩
          else
            CachedRect.Mask ⟨hitRect gB entryB, hitCoords img0,
              stylePlain.color, true, img0.texture_id⟩) ::
            (bgCached rect20 stylePlain ++ cursorCached rect20 stylePlain) :=
  claim_C4_classification sess0 rect20 0 stylePlain false 0 ⟨[], [], []⟩ gB
    entryB img0 rfl rfl

/-- C8: the emitted glyph primitive's rectangle has origin
`(⌊pen x + 0.125⌋ + left bearing, ⌊pen y⌋ − top bearing)` and the entry's
rasterized width and height, and that rectangle is what both the batch
primitive and the recorded `CachedRect` carry. -/
theorem claim_C8_position (sess : Session) (rect : Rect) (depth : F32)
    (style : TextRunStyle) (underline : Bool) (uo : ℤ) (st : GlyphLoopState)
    (g : Glyph) (entry : GlyphEntry) (img : ImageLocation)
    (hget : sess.get g.id g.x g.y = some entry)
    (himg : sess.get_image entry.image = some img) :
    hitRect g entry =
      Rect.new ((⌊g.x + 1/8⌋ : ℤ) + (entry.left : ℚ))
        ((⌊g.y⌋ : ℤ) - (entry.top : ℚ)) (entry.width : ℚ) (entry.height : ℚ)
    ∧ (processGlyph sess rect depth style underline uo st g).batches =
        st.batches ++ glyphBatchCmd depth style g entry img ::
          (bgCmds rect depth style ++ cursorCmds rect depth style)
    ∧ (processGlyph sess rect depth style underline uo st g).result =
        st.result ++ glyphCachedRect style g entry img ::
          (bgCached rect style ++ cursorCached rect style) := by
  refine ⟨?_, ?_, ?_⟩
  · simp [hitRect, glyphX, glyphY, subpxBias, Rect.new]
  · rw [processGlyph_hit _ _ _ _ _ _ _ _ _ _ hget himg]
    simp [hitCmds]
  · rw [processGlyph_hit _ _ _ _ _ _ _ _ _ _ hget himg]
    simp [hitCached]

/-- Witness for C8 at a concrete glyph with nonzero bearings. -/
theorem claim_C8_witness :
    hitRect gC entryC =
      Rect.new ((⌊gC.x + 1/8⌋ : ℤ) + (entryC.left : ℚ))
        ((⌊gC.y⌋ : ℤ) - (entryC.top : ℚ)) (entryC.width : ℚ)
        (entryC.height : ℚ)
    ∧ (processGlyph sess0 rect20 0 stylePlain false 0 ⟨[], [], []⟩ gC).batches =
        [] ++ glyphBatchCmd 0 stylePlain gC entryC img0 ::
          (bgCmds rect20 0 stylePlain ++ cursorCmds rect20 0 stylePlain)
    ∧ (processGlyph sess0 rect20 0 stylePlain false 0 ⟨[], [], []⟩ gC).result =
        [] ++ glyphCachedRect stylePlain gC entryC img0 ::
          (bgCached rect20 stylePlain ++ cursorCached rect20 stylePlain) :=
  claim_C8_position sess0 rect20 0 stylePlain false 0 ⟨[], [], []⟩ gC entryC
    img0 rfl rfl

/-- C9: `begin` resets the batch accumulator, so `finish` right after `begin`
serializes an empty display list; `finish` hands the sink all pending texture
events, clears them, and serializes the batch accumulator's contents into the
display list. -/
theorem claim_C9_frame_lifecycle (c : Compositor) :
    (c.begin).batches = []
    ∧ ((c.begin).finish).1.2 = []
    ∧ (c.finish).1.1 = c.images.pending_events
    ∧ ((c.finish).2).images.pending_events = []
    ∧ (c.finish).1.2 = build_display_list c.batches :=
  ⟨rfl, rfl, rfl, rfl, rfl⟩

/-- C7: a glyph whose cache lookup or atlas lookup misses contributes nothing:
`draw_glyphs` returns the same compositor state and `CachedRect` list as if
the glyph were absent (processing continues with the rest), and the loop body
leaves the state untouched for that glyph. -/
theorem claim_C7_silent_skip (c : Compositor) (sess : Session) (rect : Rect)
    (depth : F32) (style : TextRunStyle) (g : Glyph) (pre post : List Glyph)
    (hmiss : sess.get g.id g.x g.y = none ∨
      ∃ entry, sess.get g.id g.x g.y = some entry ∧
        sess.get_image entry.image = none) :
    drawGlyphs c sess rect depth style (pre ++ g :: post) =
      drawGlyphs c sess rect depth style (pre ++ post)
    ∧ ∀ (underline : Bool) (uo : ℤ) (st : GlyphLoopState),
        processGlyph sess rect depth style underline uo st g = st := by
  refine ⟨?_, fun underline uo st =>
    processGlyph_miss sess rect depth style underline uo st g hmiss⟩
  rcases hu : style.underline with _ | u
  · rw [drawGlyphs_none_eq c sess rect depth style _ hu,
      drawGlyphs_none_eq c sess rect depth style _ hu,
      glyphLoop_skip sess rect depth style false 0 g pre post _ hmiss]
  · rw [drawGlyphs_underline_eq c sess rect depth style _ u hu,
      drawGlyphs_underline_eq c sess rect depth style _ u hu,
      glyphLoop_skip sess rect depth style true (roundTiesAway u.offset) g pre
        post _ hmiss]

/-- Witness for C7: dropping a missing glyph between two hits changes
nothing. -/
theorem claim_C7_witness :
    drawGlyphs Compositor.new sess0 rect20 0 styleU ([g0] ++ gMiss :: [g1]) =
      drawGlyphs Compositor.new sess0 rect20 0 styleU ([g0] ++ [g1])
    ∧ processGlyph sess0 rect20 0 styleU true 0 ⟨[], [], []⟩ gMiss =
        ⟨[], [], []⟩ :=
  ⟨(claim_C7_silent_skip Compositor.new sess0 rect20 0 styleU gMiss [g0] [g1]
      (Or.inl rfl)).1,
    (claim_C7_silent_skip Compositor.new sess0 rect20 0 styleU gMiss [g0] [g1]
      (Or.inl rfl)).2 true 0 ⟨[], [], []⟩⟩

/-- C10: with underline enabled, everything `draw_glyphs` returns is either a
primitive recorded by the glyph loop or an underline rectangle in the
underline color whose height is `max(round(size), 1)` — hence at least 1 —
and whose y is `baseline − round(offset)`. -/
theorem claim_C10_underline_thickness (c : Compositor) (sess : Session)
    (rect : Rect) (depth : F32) (style : TextRunStyle) (glyphs : List Glyph)
    (u : UnderlineInfo) (hu : style.underline = some u) :
    ∀ cr ∈ (drawGlyphs c sess rect depth style glyphs).2,
      cr ∈ (glyphLoop sess rect depth style true (roundTiesAway u.offset)
          ⟨c.batches, [], []⟩ glyphs).result ∨
      ∃ r, cr = CachedRect.Standard (r, u.color)
        ∧ r.height = max ((roundTiesAway u.size : ℤ) : ℚ) 1
        ∧ r.y = style.baseline - ((roundTiesAway u.offset : ℤ) : ℚ)
        ∧ 1 ≤ r.height := by
  rw [drawGlyphs_underline_eq c sess rect depth style glyphs u hu]
  intro cr hcr
  rcases List.mem_append.1 hcr with h | h
  · exact Or.inl h
  · rcases List.mem_map.1 h with ⟨p, hp, rfl⟩
    refine Or.inr ⟨_, rfl, rfl, rfl, ?_⟩
    exact le_max_right _ 1

/-- Witness for C10: the first underline rectangle of the concrete example
run. -/
theorem claim_C10_witness :
    CachedRect.Standard (Rect.new 0 0 1 1, ucol) ∈
        (glyphLoop sess0 rect20 0 styleU true
          (roundTiesAway (0 : ℚ)) ⟨[], [], []⟩ [g0, g1]).result ∨
      ∃ r, CachedRect.Standard (Rect.new 0 0 1 1, ucol) =
          CachedRect.Standard (r, ucol)
        ∧ r.height = max ((roundTiesAway (1 : ℚ) : ℤ) : ℚ) 1
        ∧ r.y = (0 : ℚ) - ((roundTiesAway (0 : ℚ) : ℤ) : ℚ)
        ∧ 1 ≤ r.height := by
  have hmem : CachedRect.Standard (Rect.new 0 0 1 1, ucol) ∈
      (drawGlyphs Compositor.new sess0 rect20 0 styleU [g0, g1]).2 := by
    norm_num [drawGlyphs, glyphLoop, processGlyph, processGlyphHit,
      underlineParams, sweepStep, Compositor.new, sess0, rect20, styleU, g0,
      g1, entry0, entry1, img0, ucol, glyphX, glyphY, subpxBias,
      roundTiesAway, Rect.new]
  exact claim_C10_underline_thickness Compositor.new sess0 rect20 0 styleU
    [g0, g1] ⟨0, 1, ucol⟩ rfl (CachedRect.Standard (Rect.new 0 0 1 1, ucol))
    hmem

/-- C3 (amended): a run without underline never reads or modifies the
intercept buffer — the buffer is unchanged, and both the returned list and the
whole run output are independent of the buffer's contents — and it emits no
underline rectangles (its output is exactly the glyph loop's); a run with
underline enabled clears the buffer at the start, so its entire output is
independent of the buffer's prior contents and no interval recorded during one
call influences a later call. (The buffer is however not always empty when a
run without underline begins: it retains the previous underlined run's
expanded intervals, see the counterexample.) -/
theorem claim_C3_intercepts_amended :
    (∀ (c : Compositor) (sess : Session) (rect : Rect) (depth : F32)
        (style : TextRunStyle) (glyphs : List Glyph),
        style.underline = none →
        ((drawGlyphs c sess rect depth style glyphs).1.intercepts =
            c.intercepts
          ∧ (∀ I, (drawGlyphs { c with intercepts := I } sess rect depth style
              glyphs).2 = (drawGlyphs c sess rect depth style glyphs).2)
          ∧ (drawGlyphs c sess rect depth style glyphs).2 =
              (glyphLoop sess rect depth style false 0
                ⟨c.batches, c.intercepts, []⟩ glyphs).result))
    ∧ (∀ (c : Compositor) (I : List (F32 × F32)) (sess : Session)
        (rect : Rect) (depth : F32) (style : TextRunStyle)
        (glyphs : List Glyph) (u : UnderlineInfo),
        style.underline = some u →
        drawGlyphs { c with intercepts := I } sess rect depth style glyphs =
          drawGlyphs c sess rect depth style glyphs) := by
  constructor
  · intro c sess rect depth style glyphs hu
    refine ⟨?_, ?_, ?_⟩
    · rw [drawGlyphs_none_eq c sess rect depth style glyphs hu]
      simp [glyphLoop_false_intercepts]
    · intro I
      rw [drawGlyphs_none_eq { c with intercepts := I } sess rect depth style
          glyphs hu,
        drawGlyphs_none_eq c sess rect depth style glyphs hu]
      rw [glyphLoop_delta sess rect depth style false 0 glyphs
          ⟨c.batches, I, []⟩,
        glyphLoop_delta sess rect depth style false 0 glyphs
          ⟨c.batches, c.intercepts, []⟩]
    · rw [drawGlyphs_none_eq c sess rect depth style glyphs hu]
  · intro c I sess rect depth style glyphs u hu
    rw [drawGlyphs_underline_eq { c with intercepts := I } sess rect depth
        style glyphs u hu,
      drawGlyphs_underline_eq c sess rect depth style glyphs u hu]

/-- C3 counterexample: after a concrete underlined run starting from a fresh
compositor, the intercept buffer retains the expanded intervals — it is not
empty — so the next run without underline does not begin with an empty
buffer, refuting "the intercept buffer is always empty at the moment any run
without underline begins processing". -/
theorem claim_C3_counterexample :
    (drawGlyphs Compositor.new sess0 rect20 0 styleU [g0, g1]).1.intercepts =
        [(1, 5), (9, 13)]
    ∧ (drawGlyphs Compositor.new sess0 rect20 0
        styleU [g0, g1]).1.intercepts ≠ [] := by
  have h : (drawGlyphs Compositor.new sess0 rect20 0 styleU
      [g0, g1]).1.intercepts = [(1, 5), (9, 13)] := by
    norm_num [drawGlyphs, glyphLoop, processGlyph, processGlyphHit,
      underlineParams, sweepStep, Compositor.new, sess0, rect20, styleU, g0,
      g1, entry0, entry1, img0, ucol, glyphX, glyphY, subpxBias,
      roundTiesAway, Rect.new]
  refine ⟨h, ?_⟩
  rw [h]
  simp

/-- Witness for the amended C3: a plain run starting on the non-empty buffer
left by an underlined run leaves that buffer unchanged. -/
theorem claim_C3_witness :
    (drawGlyphs (drawGlyphs Compositor.new sess0 rect20 0 styleU [g0, g1]).1
        sess0 rect20 0 stylePlain [g0]).1.intercepts =
      ((drawGlyphs Compositor.new sess0 rect20 0 styleU [g0, g1]).1).intercepts :=
  (claim_C3_intercepts_amended.1
    (drawGlyphs Compositor.new sess0 rect20 0 styleU [g0, g1]).1
    sess0 rect20 0 stylePlain [g0] rfl).1

/-- C2: with underline enabled, (a) a glyph whose lookups succeed records its
descender-ink interval shifted by the glyph draw origin exactly when the
entry's top bearing minus the rounded offset is less than the rasterized
height and the entry reports an interval; (b) the returned list is the glyph
loop's output followed by one underline rectangle per sweep gap over the
1-widened intervals, swept from the run's left edge to left edge + width, and
every such gap has strictly positive width; (c) in particular intervals
(2,4),(10,12) over a run spanning x ∈ [0,20] yield exactly the three
segments [0,1), [5,9), [13,20). -/
theorem claim_C2_underline_algorithm :
    (∀ (sess : Session) (rect : Rect) (depth : F32) (style : TextRunStyle)
        (uo : ℤ) (st : GlyphLoopState) (g : Glyph) (entry : GlyphEntry)
        (img : ImageLocation),
        sess.get g.id g.x g.y = some entry →
        sess.get_image entry.image = some img →
        (processGlyph sess rect depth style true uo st g).intercepts =
          st.intercepts ++
            (if entry.top - uo < (entry.height : ℤ) then
              (match entry.desc_range with
               | some desc_ink =>
                 [(desc_ink.1 + glyphX g entry, desc_ink.2 + glyphX g entry)]
               | none => [])
            else []))
    ∧ (∀ (c : Compositor) (sess : Session) (rect : Rect) (depth : F32)
        (style : TextRunStyle) (glyphs : List Glyph) (u : UnderlineInfo),
        style.underline = some u →
        ((drawGlyphs c sess rect depth style glyphs).2 =
            (glyphLoop sess rect depth style true (roundTiesAway u.offset)
                ⟨c.batches, [], []⟩ glyphs).result ++
              (specGaps rect.x (rect.x + rect.width)
                  (((glyphLoop sess rect depth style true
                      (roundTiesAway u.offset) ⟨c.batches, [], []⟩
                      glyphs).intercepts).map
                    fun r => (r.1 - 1, r.2 + 1))).map
                (fun p => CachedRect.Standard
                  (Rect.new p.1
                    (style.baseline - ((roundTiesAway u.offset : ℤ) : ℚ)) p.2
                    (max ((roundTiesAway u.size : ℤ) : ℚ) 1), u.color))
          ∧ ∀ p ∈ specGaps rect.x (rect.x + rect.width)
              (((glyphLoop sess rect depth style true (roundTiesAway u.offset)
                  ⟨c.batches, [], []⟩ glyphs).intercepts).map
                fun r => (r.1 - 1, r.2 + 1)), 0 < p.2))
    ∧ ((drawGlyphs Compositor.new sess0 rect20 0 styleU [g0, g1]).1.intercepts
          = [(1, 5), (9, 13)]
        ∧ (drawGlyphs Compositor.new sess0 rect20 0 styleU [g0, g1]).2 =
            [CachedRect.Mask ⟨Rect.new 0 0 1 1, (0, 0, 1, 1), (0, 0, 0, 1),
                true, ⟨0⟩⟩,
             CachedRect.Mask ⟨Rect.new 0 0 1 1, (0, 0, 1, 1), (0, 0, 0, 1),
                true, ⟨0⟩⟩,
             CachedRect.Standard (Rect.new 0 0 1 1, ucol),
             CachedRect.Standard (Rect.new 5 0 4 1, ucol),
             CachedRect.Standard (Rect.new 13 0 7 1, ucol)]) := by
  refine ⟨?_, ?_, ?_, ?_⟩
  · intro sess rect depth style uo st g entry img hget himg
    rw [processGlyph_hit _ _ _ _ _ _ _ _ _ _ hget himg]
    simp [hitIntercepts]
  · intro c sess rect depth style glyphs u hu
    exact ⟨by rw [drawGlyphs_underline_eq c sess rect depth style glyphs u hu],
      specGaps_pos _ _ _⟩
  · norm_num [drawGlyphs, glyphLoop, processGlyph, processGlyphHit,
      underlineParams, sweepStep, Compositor.new, sess0, rect20, styleU, g0,
      g1, entry0, entry1, img0, ucol, glyphX, glyphY, subpxBias,
      roundTiesAway, Rect.new]
  · norm_num [drawGlyphs, glyphLoop, processGlyph, processGlyphHit,
      underlineParams, sweepStep, Compositor.new, sess0, rect20, styleU, g0,
      g1, entry0, entry1, img0, ucol, glyphX, glyphY, subpxBias,
      roundTiesAway, Rect.new]

/-- Witness for C2 at a concrete glyph with descender ink (2,4). -/
theorem claim_C2_witness :
    (processGlyph sess0 rect20 0 styleU true 0 ⟨[], [], []⟩ g0).intercepts =
      [] ++
        (if entry0.top - 0 < (entry0.height : ℤ) then
          (match entry0.desc_range with
           | some desc_ink =>
             [(desc_ink.1 + glyphX g0 entry0, desc_ink.2 + glyphX g0 entry0)]
           | none => [])
        else []) :=
  claim_C2_underline_algorithm.1 sess0 rect20 0 styleU 0 ⟨[], [], []⟩ g0
    entry0 img0 rfl rfl

/-- C5 (amended): for a run style with a background color, each glyph whose
lookups succeed gets exactly one Standard primitive at the *run rectangle's*
geometry — x = run rect x, y = top line, width = run rect width, height =
line height (not the glyph rectangle's x/width) — appended directly after the
glyph's Image/Mask primitive. -/
theorem claim_C5_background_amended (sess : Session) (rect : Rect)
    (depth : F32) (style : TextRunStyle) (underline : Bool) (uo : ℤ)
    (st : GlyphLoopState) (g : Glyph) (entry : GlyphEntry)
    (img : ImageLocation) (bg_color : Color)
    (hget : sess.get g.id g.x g.y = some entry)
    (himg : sess.get_image entry.image = some img)
    (hbg : style.background_color = some bg_color) :
    (processGlyph sess rect depth style underline uo st g).batches =
      st.batches ++ glyphBatchCmd depth style g entry img ::
        BatchCmd.rect
          (Rect.new rect.x style.topline rect.width style.line_height)
          depth bg_color :: cursorCmds rect depth style
    ∧ (processGlyph sess rect depth style underline uo st g).result =
        st.result ++ glyphCachedRect style g entry img ::
          CachedRect.Standard
            (Rect.new rect.x style.topline rect.width style.line_height,
              bg_color) :: cursorCached rect style := by
  rw [processGlyph_hit _ _ _ _ _ _ _ _ _ _ hget himg]
  constructor <;> simp [hitCmds, hitCached, bgCmds, bgCached, hbg]

/-- C5 counterexample: with run rect spanning [0,20] and a glyph whose
rectangle is (3, 0, 5, 7), the emitted background Standard rect is
(0, topline, 20, line height) — the run rectangle's x and width — not the
glyph rectangle's x and width as the claim states. -/
theorem claim_C5_counterexample :
    ((drawGlyphs Compositor.new sess0 rect20 0 styleBg [gW]).2)[1]? =
        some (CachedRect.Standard (Rect.new 0 0 20 1, (0, 1, 0, 1)))
    ∧ hitRect gW entryW = Rect.new 3 0 5 7
    ∧ Rect.new 0 0 20 1 ≠ Rect.new 3 0 5 1 := by
  refine ⟨?_, ?_, ?_⟩
  · norm_num [drawGlyphs, glyphLoop, processGlyph, processGlyphHit,
      underlineParams, Compositor.new, sess0, rect20, styleBg, gW, entryW,
      img0, glyphX, glyphY, subpxBias, Rect.new]
  · norm_num [hitRect, glyphX, glyphY, gW, entryW, subpxBias, Rect.new]
  · norm_num [Rect.new, Rect.mk.injEq]

/-- Witness for the amended C5 at a concrete glyph and background style. -/
theorem claim_C5_witness :
    (processGlyph sess0 rect20 0 styleBg false 0 ⟨[], [], []⟩ gW).batches =
      [] ++ glyphBatchCmd 0 styleBg gW entryW img0 ::
        BatchCmd.rect
          (Rect.new rect20.x styleBg.topline rect20.width styleBg.line_height)
          0 (0, 1, 0, 1) :: cursorCmds rect20 0 styleBg
    ∧ (processGlyph sess0 rect20 0 styleBg false 0 ⟨[], [], []⟩ gW).result =
        [] ++ glyphCachedRect styleBg gW entryW img0 ::
          CachedRect.Standard
            (Rect.new rect20.x styleBg.topline rect20.width
              styleBg.line_height, (0, 1, 0, 1)) :: cursorCached rect20 styleBg :=
  claim_C5_background_amended sess0 rect20 0 styleBg false 0 ⟨[], [], []⟩ gW
    entryW img0 (0, 1, 0, 1) rfl rfl rfl

/-- C6 (amended): for each glyph whose lookups succeed, a Block cursor emits
exactly one Standard rect at the run rectangle's geometry
(run rect x, topline, run rect width, line height) in the cursor color; a
Caret cursor emits exactly one Standard rect of fixed width 3.0 at the *run
rectangle's* left edge (not the glyph's left edge), full line height; no
cursor emits nothing. -/
theorem claim_C6_cursor_amended (sess : Session) (rect : Rect) (depth : F32)
    (style : TextRunStyle) (underline : Bool) (uo : ℤ) (st : GlyphLoopState)
    (g : Glyph) (entry : GlyphEntry) (img : ImageLocation)
    (hget : sess.get g.id g.x g.y = some entry)
    (himg : sess.get_image entry.image = some img) :
    (processGlyph sess rect depth style underline uo st g).batches =
      st.batches ++ glyphBatchCmd depth style g entry img ::
        (bgCmds rect depth style ++
          (match style.cursor with
           | .Block cursor_color =>
             [BatchCmd.rect
               (Rect.new rect.x style.topline rect.width style.line_height)
               depth cursor_color]
           | .Caret cursor_color =>
             [BatchCmd.rect (Rect.new rect.x style.topline 3 style.line_height)
               depth cursor_color]
           | .Disabled => []))
    ∧ (processGlyph sess rect depth style underline uo st g).result =
        st.result ++ glyphCachedRect style g entry img ::
          (bgCached rect style ++
            (match style.cursor with
             | .Block cursor_color =>
               [CachedRect.Standard
                 (Rect.new rect.x style.topline rect.width style.line_height,
                   cursor_color)]
             | .Caret cursor_color =>
               [CachedRect.Standard
                 (Rect.new rect.x style.topline 3 style.line_height,
                   cursor_color)]
             | .Disabled => [])) := by
  rw [processGlyph_hit _ _ _ _ _ _ _ _ _ _ hget himg]
  constructor <;> simp [hitCmds, hitCached, cursorCmds, cursorCached]

/-- C6 counterexample: a caret over a glyph whose draw origin is x = 3 (pen
x = 4, left bearing −1) inside a run rect starting at x = 0 is emitted at
x = 0 — the run rectangle's left edge — not at the glyph's left edge
(whether read as the draw origin 3 or the pen position 4). -/
theorem claim_C6_counterexample :
    ((drawGlyphs Compositor.new sess0 rect20 0 styleCaret [gC]).2)[1]? =
        some (CachedRect.Standard (Rect.new 0 0 3 1, (0, 0, 1, 1)))
    ∧ glyphX gC entryC = 3
    ∧ Rect.new 0 0 3 1 ≠ Rect.new 3 0 3 1
    ∧ Rect.new 0 0 3 1 ≠ Rect.new 4 0 3 1 := by
  refine ⟨?_, ?_, ?_, ?_⟩
  · norm_num [drawGlyphs, glyphLoop, processGlyph, processGlyphHit,
      underlineParams, Compositor.new, sess0, rect20, styleCaret, gC, entryC,
      img0, glyphX, glyphY, subpxBias, Rect.new]
  · norm_num [glyphX, gC, entryC, subpxBias]
  · norm_num [Rect.new, Rect.mk.injEq]
  · norm_num [Rect.new, Rect.mk.injEq]

/-- Witness for the amended C6 at a concrete caret run. -/
theorem claim_C6_witness :
    (processGlyph sess0 rect20 0 styleCaret false 0 ⟨[], [], []⟩ gC).batches =
      [] ++ glyphBatchCmd 0 styleCaret gC entryC img0 ::
        (bgCmds rect20 0 styleCaret ++
          (match styleCaret.cursor with
           | .Block cursor_color =>
             [BatchCmd.rect
               (Rect.new rect20.x styleCaret.topline rect20.width
                 styleCaret.line_height) 0 cursor_color]
           | .Caret cursor_color =>
             [BatchCmd.rect
               (Rect.new rect20.x styleCaret.topline 3 styleCaret.line_height)
               0 cursor_color]
           | .Disabled => []))
    ∧ (processGlyph sess0 rect20 0 styleCaret false 0 ⟨[], [], []⟩ gC).result =
        [] ++ glyphCachedRect styleCaret gC entryC img0 ::
          (bgCached rect20 styleCaret ++
            (match styleCaret.cursor with
             | .Block cursor_color =>
               [CachedRect.Standard
                 (Rect.new rect20.x styleCaret.topline rect20.width
                   styleCaret.line_height, cursor_color)]
             | .Caret cursor_color =>
               [CachedRect.Standard
                 (Rect.new rect20.x styleCaret.topline 3
                   styleCaret.line_height, cursor_color)]
             | .Disabled => [])) :=
  claim_C6_cursor_amended sess0 rect20 0 styleCaret false 0 ⟨[], [], []⟩ gC
    entryC img0 rfl rfl

end Rio
